import Mathlib

/-!
Verification of the SK-G BI derivation engine.

This file gives a shallow embedding, over exact rationals, of the pure
computations of the SK-G sales-performance dashboard (src/App.tsx,
src/constants.ts, src/types.ts and the unnamed source variants
src/unnamed/part_000 .. part_003), together with theorems settling the
behavioural claims about hydration, attainment metrics, client
classification, the Pareto curve, opportunity cost, input normalization
and edit framing.

JavaScript numbers are modelled as rationals; the non-finite values NaN
and Infinity, where they can actually arise (parseFloat, unguarded
division), are modelled explicitly by the `JsNum` type.  JavaScript plain
objects used as dictionaries are modelled as association lists
(first-match lookup), with the object-spread operation `{...a, ...b}`
modelled by `spread`.
-/

set_option autoImplicit false

namespace SKG

/-- A JavaScript object used as a string-keyed dictionary. -/
abbrev Obj (α : Type) : Type := List (String × α)

/-- Property lookup `o[k]`: first binding wins (JS objects have unique keys;
first-match lookup agrees on those and is total on association lists). -/
def olook {α : Type} : Obj α → String → Option α
  | [], _ => none
  | (k, v) :: rest, key => if k = key then some v else olook rest key

/-- Object spread `{...a, ...b}`: all keys of both, keys of `b` winning. -/
def spread {α : Type} (a b : Obj α) : Obj α :=
  (a.filter fun p => (olook b p.1).isNone) ++ b

/-- `{...o, [k]: v}` — update/insert a single key. -/
def objSet {α : Type} (o : Obj α) (k : String) (v : α) : Obj α :=
  spread o [(k, v)]

/-- `{...a, ...b}` where `b` may be `undefined` (spread of undefined adds
nothing). -/
def spreadOpt {α : Type} (a : Obj α) : Option (Obj α) → Obj α
  | none => a
  | some b => spread a b

/-- Lookup with JS `|| default` semantics for an absent key (values read
from hydrated state are numbers, for which the code's `|| 0` only matters
at `undefined` in the situations modelled here). -/
def getOr {α : Type} (o : Obj α) (k : String) (d : α) : α :=
  (olook o k).getD d

/- ----------------------------------------------------------------- -/
/- Data model (src/types.ts / src/unnamed/part_001)                  -/
/- ----------------------------------------------------------------- -/

/-- `SellerActual`: one month of per-seller realized revenue. -/
structure SellerActual where
  syllas : ℚ
  v1 : ℚ
  v2 : ℚ
  v3 : ℚ
  deriving DecidableEq, Repr

def zeroSA : SellerActual := ⟨0, 0, 0, 0⟩

/-- `MonthlyOperational`: one month of operational cost fields. -/
structure MonthlyOperational where
  zm : ℚ
  terceiro : ℚ
  correios : ℚ
  mercadoria : ℚ
  deriving DecidableEq, Repr

def zeroOp : MonthlyOperational := ⟨0, 0, 0, 0⟩

/-- The fixed enumerated seller set (ids of `SELLERS` in src/constants.ts). -/
inductive SellerId where
  | syllas
  | v1
  | v2
  | v3
  deriving DecidableEq, Repr

def SELLERS : List SellerId := [.syllas, .v1, .v2, .v3]

/-- Dynamic field access `actual[sellerId]`. -/
def SellerActual.get (a : SellerActual) : SellerId → ℚ
  | .syllas => a.syllas
  | .v1 => a.v1
  | .v2 => a.v2
  | .v3 => a.v3

/-- Computed field update `{...actual, [sellerId]: x}`. -/
def SellerActual.set (a : SellerActual) : SellerId → ℚ → SellerActual
  | .syllas, x => { a with syllas := x }
  | .v1, x => { a with v1 := x }
  | .v2, x => { a with v2 := x }
  | .v3, x => { a with v3 := x }

/-- `MonthlyGoal` (src/types.ts): per-seller monthly targets plus total. -/
structure MonthlyGoal where
  month : String
  syllas : ℚ
  v1 : ℚ
  v2 : ℚ
  v3 : ℚ
  total : ℚ
  deriving DecidableEq, Repr

/-- Dynamic field access `(goal as any)[sellerId]`. -/
def MonthlyGoal.get (g : MonthlyGoal) : SellerId → ℚ
  | .syllas => g.syllas
  | .v1 => g.v1
  | .v2 => g.v2
  | .v3 => g.v3

/- ----------------------------------------------------------------- -/
/- Calendar and target constants (src/constants.ts)                  -/
/- ----------------------------------------------------------------- -/

def MONTHS : List String :=
  ["Jan", "Fev", "Mar", "Abr", "Mai", "Jun",
   "Jul", "Ago", "Set", "Out", "Nov", "Dez"]

def YEARS : List String := ["2026", "2027", "2028", "2029", "2030"]

def HISTORICAL_YEARS : List ℕ := [2021, 2022, 2023, 2024, 2025]

/-- `INDIVIDUAL_METAS` (src/constants.ts): per-seller monthly targets. -/
def INDIVIDUAL_METAS : SellerId → Obj ℚ
  | .syllas =>
      [("Jan", 118500), ("Fev", 138000), ("Mar", 100000), ("Abr", 98000),
       ("Mai", 94000), ("Jun", 89000), ("Jul", 103000), ("Ago", 116000),
       ("Set", 128000), ("Out", 136000), ("Nov", 144000), ("Dez", 125000)]
  | .v1 =>
      [("Jan", 24000), ("Fev", 28000), ("Mar", 42000), ("Abr", 43000),
       ("Mai", 44000), ("Jun", 44000), ("Jul", 42000), ("Ago", 40000),
       ("Set", 39000), ("Out", 38000), ("Nov", 37000), ("Dez", 40000)]
  | .v2 =>
      [("Jan", 0), ("Fev", 26000), ("Mar", 26000), ("Abr", 27000),
       ("Mai", 27000), ("Jun", 27000), ("Jul", 42000), ("Ago", 40000),
       ("Set", 39000), ("Out", 38000), ("Nov", 37000), ("Dez", 40000)]
  | .v3 =>
      [("Jan", 0), ("Fev", 0), ("Mar", 0), ("Abr", 0),
       ("Mai", 0), ("Jun", 0), ("Jul", 0), ("Ago", 0),
       ("Set", 0), ("Out", 0), ("Nov", 0), ("Dez", 0)]

/-- `TARGET_GOALS` (src/constants.ts): one `MonthlyGoal` per month, the
total being the sum of the four per-seller targets. -/
def TARGET_GOALS : List MonthlyGoal :=
  MONTHS.map fun m =>
    { month := m
      syllas := getOr (INDIVIDUAL_METAS .syllas) m 0
      v1 := getOr (INDIVIDUAL_METAS .v1) m 0
      v2 := getOr (INDIVIDUAL_METAS .v2) m 0
      v3 := getOr (INDIVIDUAL_METAS .v3) m 0
      total := getOr (INDIVIDUAL_METAS .syllas) m 0
        + getOr (INDIVIDUAL_METAS .v1) m 0
        + getOr (INDIVIDUAL_METAS .v2) m 0
        + getOr (INDIVIDUAL_METAS .v3) m 0 }

/-- `HISTORICAL_TOP_CLIENTS` entry (src/constants.ts): the history is a
single pre-aggregated 2021-2025 sum, `history: { aggregate: ... }`. -/
structure TopClient where
  id : String
  name : String
  aggregate : ℚ
  deriving DecidableEq, Repr

def HISTORICAL_TOP_CLIENTS : List TopClient :=
  [{ id := "c1", name := "FERTIPAR BANDEIRANTES LTDA", aggregate := 1651134.13 },
   { id := "c2", name := "MACCAFERRI DO BRASIL LTDA", aggregate := 345580.94 },
   { id := "c3", name := "TEX EQUIPAMENTOS ELETRONICOS IND E COM LTDA", aggregate := 409515.19 },
   { id := "c4", name := "CONFIBRA INDUSTRIA E COMERCIO LTDA", aggregate := 122690.35 },
   { id := "c5", name := "PLASTEK DO BRASIL IND E COM LTDA", aggregate := 210510.51 },
   { id := "c6", name := "CJ DO BRASIL E COM DE PROD ALIMENTICIOS LTDA", aggregate := 344934.80 },
   { id := "c7", name := "FERTIPAR BANDEIRANTES LTDA - FILIAL PENAPOLIS", aggregate := 431593.89 },
   { id := "c8", name := "AQUAGEL REFRIGERACAO LTDA", aggregate := 226252.45 },
   { id := "c9", name := "AJINOMOTO DO BRASIL IND E COM DE ALIMENTOS LTDA", aggregate := 149205.16 },
   { id := "c10", name := "PACKDUQUE INDUSTRIA DE PLASTICOS LTDA", aggregate := 332477.66 },
   { id := "c11", name := "IGARATIBA IND E COM LTDA", aggregate := 181760.07 },
   { id := "c12", name := "PLIMAX IND DE EMBALAGENS PLASTICAS LTDA", aggregate := 271112.79 },
   { id := "c13", name := "ITURRI COIMPAR INDUSTRIA E COMERCIO DE EPI S LTDA", aggregate := 83673.82 },
   { id := "c14", name := "SIKA S.A .", aggregate := 51503.86 },
   { id := "c15", name := "CLARIOS ENERGY SOLUTIONS BRASIL LTDA", aggregate := 103382.56 },
   { id := "c16", name := "ELEKEIROZ S/A", aggregate := 47641.91 },
   { id := "c17", name := "TOYO INK BRASIL LTDA", aggregate := 152317.98 },
   { id := "c18", name := "MACCAFERRI SKAPS IND E COM DE ARTEFATOS PLASTICOS LTDA", aggregate := 145561.69 },
   { id := "c19", name := "PAIS E FILHOS USINAGEM LTDA", aggregate := 133553.27 },
   { id := "c20", name := "GLOBAL FLEX INDUSTRIA E CONSERTO LTDA", aggregate := 122690.35 },
   { id := "c21", name := "USINA ACUCAREIRA ESTER SA", aggregate := 149205.16 }]

/- ----------------------------------------------------------------- -/
/- Revenue aggregation and overall attainment (biMetrics)            -/
/- ----------------------------------------------------------------- -/

/-- `realMes`: a month's realized revenue, the sum of the four seller
entries (src/App.tsx line 111, src/unnamed/part_003 line 94). -/
def realMes (a : SellerActual) : ℚ :=
  a.syllas + a.v1 + a.v2 + a.v3

/-- The realized total of a year: months walked in calendar order via
`TARGET_GOALS`, each month's absent record defaulting to zeros
(src/unnamed/part_002 lines 55-58, part_003 lines 90-100,
src/App.tsx lines 107-117). -/
def totalRealizadoAcumulado (o : Obj SellerActual) : ℚ :=
  (TARGET_GOALS.map fun g => realMes (getOr o g.month zeroSA)).sum

/-- `totalMetaAcumulada` (src/unnamed/part_002 line 58): accumulated sum
of the monthly target totals. -/
def totalMetaAcumulada : ℚ :=
  (TARGET_GOALS.map fun g => g.total).sum

/-- The fixed annual target constant `metaAnualFixa` / `totalMetaAnual`
(src/App.tsx line 105, src/unnamed/part_003 line 88). -/
def metaAnualFixa : ℚ := 2180000

/-- Overall attainment of src/App.tsx (line 143) and part_003 (line 120):
total realized divided by the fixed annual constant. -/
def atingimentoApp (o : Obj SellerActual) : ℚ :=
  totalRealizadoAcumulado o / metaAnualFixa * 100

/-- `overallPercentage` of src/unnamed/part_002 (lines 102-105): total
realized divided by the accumulated monthly-target sum, 0 when that sum
is not positive. -/
def overallPercentage002 (o : Obj SellerActual) : ℚ :=
  if 0 < totalMetaAcumulada then totalRealizadoAcumulado o / totalMetaAcumulada * 100 else 0

/- ----------------------------------------------------------------- -/
/- Seller performance (monthly and annual)                           -/
/- ----------------------------------------------------------------- -/

/-- One row of `sellersMonthSummary` / `sellersYearSummary`. -/
structure SellerSummary where
  id : SellerId
  meta : ℚ
  realizado : ℚ
  atingimento : ℚ
  deriving DecidableEq, Repr

/-- `sellersMonthSummary` (src/unnamed/part_002 lines 71-82): per-seller
attainment for the selected month, with the zero-target special case
(realized/meta×100 if meta>0; else 100 if realized>0; else 0). -/
def sellersMonthSummary (monthGoal : MonthlyGoal) (monthActual : SellerActual) :
    List SellerSummary :=
  SELLERS.map fun s =>
    let meta := monthGoal.get s
    let real := monthActual.get s
    { id := s
      meta := meta
      realizado := real
      atingimento := if 0 < meta then real / meta * 100 else if 0 < real then 100 else 0 }

/-- A seller's annual target total: `TARGET_GOALS.reduce((acc, curr) =>
acc + curr[k], 0)` (src/unnamed/part_002 line 88). -/
def metaTotalSeller (k : SellerId) : ℚ :=
  (TARGET_GOALS.map fun g => g.get k).sum

/-- A seller's annual realized total: `Object.values(currentYearData)
.reduce((acc, curr) => acc + curr[k], 0)` (src/unnamed/part_002 line 90);
`Object.values` of the year record is the list of its month values. -/
def realizadoTotalSeller (k : SellerId) (o : Obj SellerActual) : ℚ :=
  ((o.map Prod.snd).map fun a => a.get k).sum

/-- `sellersYearSummary` attainment (src/unnamed/part_002 lines 85-98):
ratio of annual sums, with the zero-target special case. -/
def atingimentoAnual (k : SellerId) (o : Obj SellerActual) : ℚ :=
  if 0 < metaTotalSeller k then realizadoTotalSeller k o / metaTotalSeller k * 100
  else if 0 < realizadoTotalSeller k o then 100 else 0

/-- A seller's annual realized total in src/App.tsx `sellerPerformance`
(lines 197-208): summed over `MONTHS` with per-month default zeros. -/
def realizadoVendedor (k : SellerId) (o : Obj SellerActual) : ℚ :=
  (MONTHS.map fun m => (getOr o m zeroSA).get k).sum

/-- `sellerPerformance` attainment (src/App.tsx line 206): ratio of
annual sums, 0 when the annual target is not positive. -/
def atingimentoVendedorApp (k : SellerId) (o : Obj SellerActual) : ℚ :=
  if 0 < metaTotalSeller k then realizadoVendedor k o / metaTotalSeller k * 100 else 0

/-- Modelled from the spec (§4.4, for comparison only — the code never
computes this): the average of the twelve per-month attainment ratios,
each month's ratio taken with the §4.4 zero-target rule. -/
def specAvgOfMonthlyRatios (k : SellerId) (o : Obj SellerActual) : ℚ :=
  ((TARGET_GOALS.map fun g =>
    let meta := g.get k
    let real := (getOr o g.month zeroSA).get k
    if 0 < meta then real / meta * 100 else if 0 < real then 100 else 0).sum) / 12

/- ----------------------------------------------------------------- -/
/- Client classification (t20Analysis status)                        -/
/- ----------------------------------------------------------------- -/

inductive ClientStatus where
  | STAR
  | CHURN
  | STABLE
  | DECREASE
  deriving DecidableEq, Repr

/-- The classifier of src/App.tsx `t20Analysis` (lines 729-732 of the
second application snapshot in that file): STAR is tested first, then
CHURN, then DECREASE, default STABLE. -/
def statusV13 (lastYear prevYear avgHist : ℚ) : ClientStatus :=
  if avgHist * 1.2 < lastYear then .STAR
  else if lastYear = 0 ∧ 0 < prevYear then .CHURN
  else if lastYear < prevYear * 0.8 ∧ 0 < lastYear then .DECREASE
  else .STABLE

/-- The classifier of src/unnamed/part_003 `t20Analysis` (lines 144-147):
STAR first, then CHURN on `lastYear === 0` alone, then DECREASE against
the historical average. -/
def statusV17 (lastYear avgHist : ℚ) : ClientStatus :=
  if avgHist * 1.15 < lastYear then .STAR
  else if lastYear = 0 then .CHURN
  else if lastYear < avgHist * 0.8 then .DECREASE
  else .STABLE

/-- A top client with the per-year history shape of src/unnamed/part_000. -/
structure TopClientHist where
  id : String
  name : String
  history : List (ℕ × ℚ)
  deriving DecidableEq, Repr

/-- `client.history[yr] || 0`. -/
def hval (h : List (ℕ × ℚ)) (yr : ℕ) : ℚ :=
  match h with
  | [] => 0
  | (y, v) :: rest => if y = yr then v else hval rest yr

/-- `HISTORICAL_TOP_CLIENTS` of src/unnamed/part_000 (per-year values). -/
def HISTORICAL_TOP_CLIENTS_v12 : List TopClientHist :=
  [{ id := "c1", name := "MACCAFERRI DO BRASIL LTDA", history := [(2021, 284869), (2022, 50161), (2023, 104303), (2024, 135998), (2025, 57016)] },
   { id := "c2", name := "FERTIPAR BANDEIRANTES LTDA", history := [(2021, 62158), (2022, 99953), (2023, 245829), (2024, 560605), (2025, 786692)] },
   { id := "c3", name := "PLASTEK DO BRASIL IND E COM LTDA", history := [(2021, 143580), (2022, 126538), (2023, 52269), (2024, 16275), (2025, 18309)] },
   { id := "c4", name := "TEX EQUIPAMENTOS ELETRONICOS", history := [(2021, 82418), (2022, 77266), (2023, 105537), (2024, 121464), (2025, 123748)] },
   { id := "c5", name := "CONFIBRA INDUSTRIA E COMERCIO", history := [(2021, 75438), (2022, 120144), (2023, 64626), (2024, 45824), (2025, 46212)] },
   { id := "c6", name := "AJINOMOTO DO BRASIL LTDA", history := [(2021, 75186), (2022, 19467), (2023, 53603), (2024, 55354), (2025, 44257)] },
   { id := "c7", name := "CJ DO BRASIL PROD ALIMENTICIOS", history := [(2021, 64585), (2022, 98068), (2023, 0), (2024, 200000), (2025, 13353)] },
   { id := "c8", name := "IGARATIBA IND E COM LTDA", history := [(2021, 47469), (2022, 38007), (2023, 51410), (2024, 55703), (2025, 27566)] },
   { id := "c9", name := "CLARIOS ENERGY SOLUTIONS", history := [(2021, 28570), (2022, 48064), (2023, 49474), (2024, 0), (2025, 13258)] },
   { id := "c10", name := "ITURRI COIMPAR INDUSTRIA", history := [(2021, 22199), (2022, 71398), (2023, 76310), (2024, 0), (2025, 0)] },
   { id := "c11", name := "ELEKEIROZ S/A", history := [(2021, 15957), (2022, 45817), (2023, 30596), (2024, 25631), (2025, 30809)] },
   { id := "c12", name := "AQUAGEL REFRIGERACAO LTDA", history := [(2021, 0), (2022, 68222), (2023, 108894), (2024, 83043), (2025, 74082)] },
   { id := "c13", name := "SIKA S.A.", history := [(2021, 0), (2022, 0), (2023, 0), (2024, 0), (2025, 44211)] },
   { id := "c14", name := "USINA ACUCAREIRA ESTER SA", history := [(2021, 0), (2022, 0), (2023, 0), (2024, 36961), (2025, 43178)] },
   { id := "c15", name := "GLOBAL FLEX IND E CONSERTO", history := [(2021, 0), (2022, 0), (2023, 0), (2024, 29022), (2025, 71597)] },
   { id := "c16", name := "EMS S/A", history := [(2021, 0), (2022, 0), (2023, 0), (2024, 0), (2025, 16600)] },
   { id := "c17", name := "SUDESTE AUTOMACAO EIRELI", history := [(2021, 0), (2022, 0), (2023, 0), (2024, 0), (2025, 15682)] },
   { id := "c18", name := "JV FERRAMENTARIA LTDA", history := [(2021, 0), (2022, 0), (2023, 0), (2024, 0), (2025, 14941)] },
   { id := "c19", name := "PAIS E FILHOS USINAGEM LTDA", history := [(2021, 0), (2022, 69586), (2023, 51720), (2024, 12736), (2025, 0)] },
   { id := "c20", name := "MIURA BOILER DO BRASIL LTDA", history := [(2021, 12187), (2022, 0), (2023, 16133), (2024, 0), (2025, 0)] }]

/-- `client.history[2025] || 0`. -/
def lastYearOf (c : TopClientHist) : ℚ := hval c.history 2025

/-- `client.history[2024] || 0` (the prior year in the App.tsx variant). -/
def prevYearOf (c : TopClientHist) : ℚ := hval c.history 2024

/-- `avgHist` (src/unnamed/part_003 line 142, src/App.tsx second snapshot
line 727): sum of the five historical-year values divided by the length
of `HISTORICAL_YEARS`. -/
def avgHistOf (c : TopClientHist) : ℚ :=
  (HISTORICAL_YEARS.map fun yr => hval c.history yr).sum / (HISTORICAL_YEARS.length : ℚ)

/- ----------------------------------------------------------------- -/
/- JavaScript numbers with NaN / Infinity                            -/
/- ----------------------------------------------------------------- -/

/-- A JavaScript number where non-finite values matter: a finite value
(exact rational), a signed infinity, or NaN. -/
inductive JsNum where
  | num (q : ℚ)
  | inf (neg : Bool)
  | nan
  deriving DecidableEq, Repr

/-- JS unary minus on a number. -/
def negJs : JsNum → JsNum
  | .num q => .num (-q)
  | .inf b => .inf (!b)
  | .nan => .nan

/-- JS division `a / b` of finite values: finite when `b ≠ 0`, NaN for
`0/0`, signed infinity for `a/0` with `a ≠ 0`. -/
def jsDiv (a b : ℚ) : JsNum :=
  if b = 0 then (if a = 0 then .nan else .inf (a < 0)) else .num (a / b)

/-- JS multiplication of a number by a positive finite constant. -/
def jsMulPos (x : JsNum) (k : ℚ) : JsNum :=
  match x with
  | .num q => .num (q * k)
  | .inf b => .inf b
  | .nan => .nan

/- ----------------------------------------------------------------- -/
/- Pareto concentration curve                                        -/
/- ----------------------------------------------------------------- -/

/-- The running-accumulator walk of src/unnamed/part_003 `paretoData`
(lines 160-168): `cumulative += value` then emit
`total > 0 ? cumulative / total * 100 : 0`. -/
def paretoGo (total : ℚ) : ℚ → List ℚ → List ℚ
  | _, [] => []
  | cum, v :: vs =>
      (if 0 < total then (cum + v) / total * 100 else 0) :: paretoGo total (cum + v) vs

/-- `paretoData` (src/unnamed/part_003 lines 159-168) over the reference
values of the (sorted) client list: the grand total is the sum of the
same list. -/
def paretoData (values : List ℚ) : List ℚ :=
  paretoGo values.sum 0 values

/-- `paretoData` of src/unnamed/part_002 (lines 135-140): the cumulative
share `analysis.slice(0, i+1).reduce(...) / totalRealT20 * 100` with an
unguarded JS division. -/
def paretoData002 (values : List ℚ) : List JsNum :=
  (List.range values.length).map fun i =>
    jsMulPos (jsDiv ((values.take (i + 1)).sum) values.sum) 100

/- ----------------------------------------------------------------- -/
/- Opportunity cost (src/App.tsx t20Analysis, lines 152-194)         -/
/- ----------------------------------------------------------------- -/

/-- `mediaHistoricaAnual = ((client.history as any).aggregate || 0) / 5`
(src/App.tsx lines 154-155). -/
def mediaHistoricaAnual (c : TopClient) : ℚ := c.aggregate / 5

/-- A client's opportunity-cost contribution (src/App.tsx lines 157-160):
`valProj = db.t20Projections[client.id]?.[year] || 0`; idle exactly when
`valProj === 0`; an idle client contributes its historical annual
average, a non-idle one contributes 0. -/
def opportunityCost (c : TopClient) (proj : String → Option ℚ) : ℚ :=
  let valProj := (proj c.id).getD 0
  if valProj = 0 then mediaHistoricaAnual c else 0

/-- `totalOpportunityCost = analysis.reduce((sum, c) => sum +
c.opportunityCost, 0)` (src/App.tsx line 191); the sort applied to
`analysis` does not change the sum. -/
def totalOpportunityCost (proj : String → Option ℚ) : ℚ :=
  (HISTORICAL_TOP_CLIENTS.map fun c => opportunityCost c proj).sum

/- ----------------------------------------------------------------- -/
/- State hydration (src/App.tsx lines 60-90)                         -/
/- ----------------------------------------------------------------- -/

/-- The parsed persisted payload: each top-level section may be absent. -/
structure SKGPayload where
  revenue : Option (Obj (Obj SellerActual))
  operational : Option (Obj (Obj MonthlyOperational))
  t20Projections : Option (Obj (List (ℕ × ℚ)))
  deriving DecidableEq, Repr

/-- The hydrated root object `SKGDatabase` (src/App.tsx lines 23-27). -/
structure SKGDatabase where
  revenue : Obj (Obj SellerActual)
  operational : Obj (Obj MonthlyOperational)
  t20Projections : Obj (List (ℕ × ℚ))
  deriving DecidableEq, Repr

/-- The zero-filled month skeleton of one year (src/App.tsx lines 68-71). -/
def monthsZeroSA : Obj SellerActual := MONTHS.map fun m => (m, zeroSA)

def monthsZeroOp : Obj MonthlyOperational := MONTHS.map fun m => (m, zeroOp)

/-- `initialRevenue` (src/App.tsx lines 61-72). -/
def initialRevenue : Obj (Obj SellerActual) :=
  YEARS.map fun yr => (yr, monthsZeroSA)

/-- `initialOp` (src/App.tsx lines 62-72). -/
def initialOp : Obj (Obj MonthlyOperational) :=
  YEARS.map fun yr => (yr, monthsZeroOp)

/-- `initialT20` (src/App.tsx lines 74-76). -/
def initialT20 : Obj (List (ℕ × ℚ)) :=
  HISTORICAL_TOP_CLIENTS.map fun c =>
    (c.id, [(2026, 0), (2027, 0), (2028, 0), (2029, 0), (2030, 0)])

/-- The `db` useState initializer (src/App.tsx lines 60-90): the skeleton
when nothing was saved, otherwise the saved payload spread over the
skeleton section by section — a shallow merge at the year level. -/
def dbInit : Option SKGPayload → SKGDatabase
  | none => ⟨initialRevenue, initialOp, initialT20⟩
  | some p =>
      ⟨spreadOpt initialRevenue p.revenue,
       spreadOpt initialOp p.operational,
       spreadOpt initialT20 p.t20Projections⟩

/-- Month lookup inside a hydrated two-level section. -/
def olook2 {α : Type} (o : Obj (Obj α)) (yr m : String) : Option α :=
  (olook o yr).bind fun s => olook s m

/- ----------------------------------------------------------------- -/
/- Edit handlers (src/App.tsx lines 225-256)                         -/
/- ----------------------------------------------------------------- -/

/-- `handleRevenueInput` (src/App.tsx lines 225-234) after the input text
has been normalized to `num`: nested object spreads replacing one seller
cell of one month of the selected year.  JS throws if the selected
year's record is absent (property access on `undefined`), modelled by
`none`; an absent month record spreads as `{}`, i.e. all-zero reads. -/
def handleRevenueInput (db : SKGDatabase) (year month : String) (seller : SellerId)
    (num : ℚ) : Option SKGDatabase :=
  match olook db.revenue year with
  | none => none
  | some ym =>
      some { db with
        revenue :=
          objSet db.revenue year
            (objSet ym month (((olook ym month).getD zeroSA).set seller num)) }

/-- Single-key update of a year-keyed record `{...h, [year]: num}`. -/
def nset (h : List (ℕ × ℚ)) (k : ℕ) (v : ℚ) : List (ℕ × ℚ) :=
  (h.filter fun p => p.1 ≠ k) ++ [(k, v)]

/-- `handleT20Input` (src/App.tsx lines 247-256) after normalization:
replaces one client's value for one year; spreading an absent client
record reads as `{}`. -/
def handleT20Input (db : SKGDatabase) (clientId : String) (year : ℕ) (num : ℚ) :
    SKGDatabase :=
  { db with
    t20Projections :=
      objSet db.t20Projections clientId
        (nset ((olook db.t20Projections clientId).getD []) year num) }

/- ----------------------------------------------------------------- -/
/- Input normalizer (src/unnamed/part_002 lines 168-171)             -/
/- ----------------------------------------------------------------- -/

def DIGITS : List Char := ['0', '1', '2', '3', '4', '5', '6', '7', '8', '9']

/-- The decimal digit character for `d` (meaningful for `d < 10`). -/
def digitChar (d : ℕ) : Char := DIGITS.getD d '0'

/-- Numeric value of a digit character. -/
def digitVal (c : Char) : ℕ := c.toNat - 48

/-- Value of a big-endian digit string. -/
def valNat (ds : List Char) : ℕ :=
  ds.foldl (fun a c => a * 10 + digitVal c) 0

/-- Value of a fraction digit string `d1 d2 ...` as `0.d1d2...`. -/
def fracVal (ds : List Char) : ℚ :=
  ds.foldr (fun c a => ((digitVal c : ℚ) + a) / 10) 0

/-- Exponent digits (after an optional sign). -/
def expNat (r : List Char) : Option ℤ :=
  let ds := r.takeWhile Char.isDigit
  if ds.isEmpty then none else some (valNat ds : ℤ)

def expSigned : List Char → Option ℤ
  | '+' :: r => expNat r
  | '-' :: r => (expNat r).map (fun z => -z)
  | r => expNat r

/-- An `e`/`E` exponent part, `none` when there is no well-formed one
(in which case `parseFloat` keeps only the mantissa). -/
def expVal : List Char → Option ℤ
  | 'e' :: rest => expSigned rest
  | 'E' :: rest => expSigned rest
  | _ => none

def INF_CHARS : List Char := ['I', 'n', 'f', 'i', 'n', 'i', 't', 'y']

def infCheck (cs : List Char) : Bool := decide (cs.take 8 = INF_CHARS)

/-- Longest-prefix decimal mantissa: digits, optional dot, digits;
`none` when no digit is found before the (optional) dot or after it. -/
def parseMantissa (cs : List Char) : Option (ℚ × List Char) :=
  let ds1 := cs.takeWhile Char.isDigit
  let r1 := cs.dropWhile Char.isDigit
  match r1 with
  | '.' :: r2 =>
      let ds2 := r2.takeWhile Char.isDigit
      if ds1.isEmpty ∧ ds2.isEmpty then none
      else some ((valNat ds1 : ℚ) + fracVal ds2, r2.dropWhile Char.isDigit)
  | _ => if ds1.isEmpty then none else some ((valNat ds1 : ℚ), r1)

/-- Unsigned part of `parseFloat`: the `Infinity` keyword or a decimal
mantissa with optional exponent; NaN when neither is present. -/
def parseMag (cs : List Char) : JsNum :=
  if infCheck cs then .inf false
  else
    match parseMantissa cs with
    | none => .nan
    | some (m, rest) =>
        match expVal rest with
        | none => .num m
        | some e => .num (m * (10 : ℚ) ^ e)

/-- Model of JavaScript `parseFloat` on a character list: skip leading
whitespace, optional sign, then the longest numeric-literal prefix; NaN
when there is none. -/
def parseFloatList (cs0 : List Char) : JsNum :=
  match cs0.dropWhile Char.isWhitespace with
  | [] => .nan
  | c :: rest =>
      if c = '-' then negJs (parseMag rest)
      else if c = '+' then parseMag rest
      else parseMag (c :: rest)

/-- Model of JavaScript `parseFloat`. -/
def parseFloatJs (s : String) : JsNum := parseFloatList s.data

/-- Keep a character under `val.replace(/[R$\s.]/g, '')`: everything but
`R`, `$`, whitespace and `.` survives. -/
def cleanKeep (c : Char) : Bool :=
  !(c == 'R' || c == '$' || c.isWhitespace || c == '.')

def cleanChars (cs : List Char) : List Char := cs.filter cleanKeep

/-- `.replace(',', '.')` with a string pattern replaces only the first
comma. -/
def replFirstComma : List Char → List Char
  | [] => []
  | c :: cs => if c = ',' then '.' :: cs else c :: replFirstComma cs

/-- The cleaned string `val.replace(/[R$\s.]/g, '').replace(',', '.')`. -/
def cleanStr (s : String) : String :=
  String.mk (replFirstComma (cleanChars s.data))

/-- `parseNum` (src/unnamed/part_002 lines 168-171):
`isNaN(parseFloat(clean)) ? 0 : parseFloat(clean)`.  The inline
`parseFloat(...) || 0` of the src/App.tsx handlers agrees with it on
every value (NaN and 0 both map to 0). -/
def parseNum (val : String) : JsNum :=
  match parseFloatJs (cleanStr val) with
  | .nan => .num 0
  | r => r

/- ----------------------------------------------------------------- -/
/- pt-BR locale rendering (display side of the edit fields)          -/
/- ----------------------------------------------------------------- -/

/-- Fuelled digit extraction (big-endian); fuel `n + 1` suffices. -/
def natDigitsGo : ℕ → ℕ → List Char → List Char
  | 0, _, acc => acc
  | fuel + 1, n, acc =>
      if n < 10 then digitChar n :: acc
      else natDigitsGo fuel (n / 10) (digitChar (n % 10) :: acc)

/-- Big-endian decimal digit string of a natural number. -/
def natDigits (n : ℕ) : List Char := natDigitsGo (n + 1) n []

/-- Insert the pt-BR thousands separator into a reversed digit list:
after every third digit (counting from the least significant) a `'.'`
is inserted when more digits follow. -/
def groupRevAux : List Char → ℕ → List Char
  | [], _ => []
  | c :: cs, k =>
      if k = 3 then c :: (if cs.isEmpty then [] else '.' :: groupRevAux cs 1)
      else c :: groupRevAux cs (k + 1)

/-- Digit grouping `1234567 ↦ 1.234.567`. -/
def groupDigits (ds : List Char) : List Char :=
  (groupRevAux ds.reverse 1).reverse

/-- Three-digit zero-padded rendering of `F < 1000`. -/
def pad3 (f : ℕ) : List Char :=
  [digitChar (f / 100), digitChar (f / 10 % 10), digitChar (f % 10)]

/-- Drop trailing `'0'` characters (minimumFractionDigits is 0). -/
def stripZeros (ds : List Char) : List Char :=
  (ds.reverse.dropWhile fun c => c == '0').reverse

/-- Round a non-negative rational to an integer count of thousandths,
half away from zero (the Intl default `halfExpand` rounding at the
default `maximumFractionDigits` of 3). -/
def roundMil (x : ℚ) : ℕ := (Int.floor (x * 1000 + 1 / 2)).toNat

/-- Rendering of a non-negative number under `toLocaleString('pt-BR')`
with default options: grouped integer digits, decimal comma, at most
three fraction digits, no trailing fraction zeros. -/
def renderPos (q : ℚ) : List Char :=
  groupDigits (natDigits (roundMil q / 1000)) ++
    (if roundMil q % 1000 = 0 then []
     else ',' :: stripZeros (pad3 (roundMil q % 1000)))

/-- Model of `Number.prototype.toLocaleString('pt-BR')` with default
options, used by the edit fields of src/unnamed/part_002 (line 310). -/
def toLocalePtBR (q : ℚ) : String :=
  if q < 0 then String.mk ('-' :: renderPos (-q)) else String.mk (renderPos q)

/-- The canonical string form a stored value is displayed back with
(src/unnamed/part_002 lines 306-312):
`actual[k] > 0 ? actual[k].toLocaleString('pt-BR') : ''`. -/
def toCanonicalDisplay (q : ℚ) : String :=
  if 0 < q then toLocalePtBR q else ""

/- ----------------------------------------------------------------- -/
/- Concrete instances used by counterexamples and witnesses          -/
/- ----------------------------------------------------------------- -/

/-- A persisted payload whose revenue section holds a partial year. -/
def partialPayload : SKGPayload :=
  { revenue := some [("2026", [("Jan", zeroSA)])]
    operational := none
    t20Projections := none }

/-- A year of data with a single January entry realizing the whole
annual target. -/
def oC2 : Obj SellerActual := [("Jan", ⟨2180000, 0, 0, 0⟩)]

/-- Client c20 of src/unnamed/part_000: zero in 2025 and zero in 2024. -/
def miura : TopClientHist :=
  { id := "c20", name := "MIURA BOILER DO BRASIL LTDA",
    history := [(2021, 12187), (2022, 0), (2023, 16133), (2024, 0), (2025, 0)] }

/-- A year of data where v1 realizes 12000 in January only. -/
def oC9 : Obj SellerActual := [("Jan", ⟨0, 12000, 0, 0⟩)]

/-- A year of data where v3 — whose monthly targets are all 0 in the
static tables — realizes 5000 in January. -/
def oC9v3 : Obj SellerActual := [("Jan", ⟨0, 0, 0, 5000⟩)]

/-- A month goal giving v1 a 24000 target (the January column). -/
def goalW : MonthlyGoal := ⟨"Jan", 118500, 24000, 0, 0, 142500⟩

/-- January actuals: v1 realized 12000. -/
def actualW : SellerActual := ⟨0, 12000, 0, 0⟩

/-- The v1 row computed from `goalW`/`actualW`. -/
def rowW : SellerSummary := { id := .v1, meta := 24000, realizado := 12000, atingimento := 50 }

def strEmpty : String := ""
def strAbc : String := "abc"
def strBRL : String := "R$ 1.234,56"
def strM5 : String := "-5"
def strP0005 : String := "0,0005"

/- ----------------------------------------------------------------- -/
/- Association-list lemmas                                           -/
/- ----------------------------------------------------------------- -/

theorem olook_map_keys {α : Type} (f : String → α) (ks : List String) (y : String)
    (hy : y ∈ ks) : olook (ks.map fun k => (k, f k)) y = some (f y) := by
  induction ks with
  | nil => cases hy
  | cons k ks ih =>
      simp only [List.map_cons, olook]
      by_cases h : k = y
      · subst h; simp
      · rw [if_neg h]
        rcases List.mem_cons.mp hy with h1 | h1
        · exact absurd h1.symm h
        · exact ih h1

theorem olook_append {α : Type} (a b : Obj α) (k : String) :
    olook (a ++ b) k = match olook a k with
      | some v => some v
      | none => olook b k := by
  induction a with
  | nil => simp [olook]
  | cons p a ih =>
      obtain ⟨k0, v0⟩ := p
      simp only [List.cons_append, olook]
      by_cases h : k0 = k
      · simp [h]
      · simp only [if_neg h]; exact ih

theorem olook_filter_isNone {α : Type} (a b : Obj α) (k : String) :
    olook (a.filter fun p => (olook b p.1).isNone) k =
      if (olook b k).isNone then olook a k else none := by
  induction a with
  | nil => simp [olook]
  | cons p a ih =>
      obtain ⟨k0, v0⟩ := p
      by_cases h : k0 = k
      · subst h
        by_cases hq : (olook b k0).isNone <;> simp [List.filter_cons, hq, olook, ih]
      · by_cases hq : (olook b k0).isNone <;> simp [List.filter_cons, hq, olook, h, ih]

theorem olook_spread {α : Type} (a b : Obj α) (k : String) :
    olook (spread a b) k = match olook b k with
      | some v => some v
      | none => olook a k := by
  rw [spread, olook_append, olook_filter_isNone a b k]
  rcases hb : olook b k with _ | v
  · simp only [hb, Option.isNone_none, if_pos]
    rcases ho : olook a k with _ | w <;> rfl
  · simp [hb]

theorem olook_spread_of_none {α : Type} {a b : Obj α} {k : String}
    (h : olook b k = none) : olook (spread a b) k = olook a k := by
  rw [olook_spread, h]

theorem olook_spread_of_some {α : Type} {a b : Obj α} {k : String} {v : α}
    (h : olook b k = some v) : olook (spread a b) k = some v := by
  rw [olook_spread, h]

theorem olook_objSet {α : Type} (o : Obj α) (k k2 : String) (v : α) :
    olook (objSet o k v) k2 = if k2 = k then some v else olook o k2 := by
  rw [objSet, olook_spread]
  by_cases h : k2 = k
  · subst h; simp [olook]
  · rw [if_neg h]
    have : olook [(k, v)] k2 = none := by
      simp only [olook]
      rw [if_neg (fun hk => h hk.symm)]
  --
    rw [this]

/- ----------------------------------------------------------------- -/
/- C1: hydration coverage                                            -/
/- ----------------------------------------------------------------- -/

/-- C1 (counterexample): the claim that no (year, month) combination is
missing after the merge fails — a persisted payload whose revenue
section holds a partial year 2026 (only January) hydrates to a snapshot
with no revenue entry for (2026, Fev), because the spread merge is
shallow at the year level. -/
theorem c1_hydration_counterexample :
    olook2 (dbInit (some partialPayload)).revenue "2026" "Fev" = none := by
  simp [olook2, dbInit, partialPayload, spreadOpt, spread, olook,
    initialRevenue, monthsZeroSA, YEARS, MONTHS]

/-- C1 (amended): hydration guarantees a revenue and an operational-cost
entry for every fixed month of a fixed year only as far as the loaded
payload does not override that year: when the payload is absent, or its
revenue/operational sections are absent or do not contain the year, the
skeleton's fully-populated year — and hence every month — survives the
merge.  A payload-supplied year section replaces the skeleton year
wholesale and may drop months. -/
theorem c1_hydration_amended (p : Option SKGPayload) (y m : String)
    (hy : y ∈ YEARS) (hm : m ∈ MONTHS)
    (hrev : ∀ pl r, p = some pl → pl.revenue = some r → olook r y = none)
    (hop : ∀ pl r, p = some pl → pl.operational = some r → olook r y = none) :
    olook2 (dbInit p).revenue y m = some zeroSA ∧
    olook2 (dbInit p).operational y m = some zeroOp := by
  have hrev0 : olook initialRevenue y = some monthsZeroSA :=
    olook_map_keys (fun _ => monthsZeroSA) YEARS y hy
  have hop0 : olook initialOp y = some monthsZeroOp :=
    olook_map_keys (fun _ => monthsZeroOp) YEARS y hy
  have hm1 : olook monthsZeroSA m = some zeroSA :=
    olook_map_keys (fun _ => zeroSA) MONTHS m hm
  have hm2 : olook monthsZeroOp m = some zeroOp :=
    olook_map_keys (fun _ => zeroOp) MONTHS m hm
  cases p with
  | none => exact ⟨by simp [dbInit, olook2, hrev0, hm1], by simp [dbInit, olook2, hop0, hm2]⟩
  | some pl =>
      constructor
      · rcases hr : pl.revenue with _ | r
        · simp [dbInit, olook2, spreadOpt, hr, hrev0, hm1]
        · have hnone : olook r y = none := hrev pl r rfl hr
          simp [dbInit, olook2, spreadOpt, hr, olook_spread_of_none hnone, hrev0, hm1]
      · rcases ho : pl.operational with _ | r
        · simp [dbInit, olook2, spreadOpt, ho, hop0, hm2]
        · have hnone : olook r y = none := hop pl r rfl ho
          simp [dbInit, olook2, spreadOpt, ho, olook_spread_of_none hnone, hop0, hm2]

/-- C1 (witness): the amended coverage theorem applied at the absent
payload and the concrete cell (2026, Jan). -/
theorem c1_hydration_amended_witness :
    olook2 (dbInit none).revenue "2026" "Jan" = some zeroSA ∧
    olook2 (dbInit none).operational "2026" "Jan" = some zeroOp :=
  c1_hydration_amended none "2026" "Jan" (by decide) (by decide)
    (fun _ _ h _ => nomatch h) (fun _ _ h _ => nomatch h)

/- ----------------------------------------------------------------- -/
/- C2: overall attainment                                            -/
/- ----------------------------------------------------------------- -/

/-- C2 (counterexample): in the part_002 engine the overall percentage
is not the fixed-constant formula of the claim — with January realizing
2180000 the claimed formula gives 100 while `overallPercentage` divides
by the accumulated monthly-target sum. -/
theorem c2_overall_attainment_counterexample :
    overallPercentage002 oC2 ≠ totalRealizadoAcumulado oC2 / 2180000 * 100 := by
  have hmeta : totalMetaAcumulada = 2219500 := by
    simp [totalMetaAcumulada, TARGET_GOALS, MONTHS, INDIVIDUAL_METAS, getOr, olook]
    norm_num
  have hreal : totalRealizadoAcumulado oC2 = 2180000 := by
    simp [totalRealizadoAcumulado, oC2, TARGET_GOALS, MONTHS, INDIVIDUAL_METAS, getOr,
      olook, realMes, zeroSA]
  rw [overallPercentage002, hmeta, hreal]
  norm_num

/-- C2 (amended): the App.tsx/part_003 engines compute overall
attainment as total realized over the fixed annual constant 2180000
times 100, exactly as the claim states; the part_002 engine instead
divides by the accumulated sum of the monthly target totals, which
equals 2219500, not the fixed constant. -/
theorem c2_overall_attainment_amended (o : Obj SellerActual) :
    atingimentoApp o = totalRealizadoAcumulado o / 2180000 * 100 ∧
    overallPercentage002 o = totalRealizadoAcumulado o / 2219500 * 100 := by
  have hmeta : totalMetaAcumulada = 2219500 := by
    simp [totalMetaAcumulada, TARGET_GOALS, MONTHS, INDIVIDUAL_METAS, getOr, olook]
    norm_num
  refine ⟨rfl, ?_⟩
  rw [overallPercentage002, hmeta, if_pos (by norm_num : (0:ℚ) < 2219500)]

/- ----------------------------------------------------------------- -/
/- C3: CHURN classification                                          -/
/- ----------------------------------------------------------------- -/

/-- C3 (counterexample): client c20 (MIURA) of the per-year client table
has a 2025 value of 0 and a 2024 value of 0, so the claim says its
status is not CHURN; the part_003 classifier nevertheless assigns CHURN,
because it tests `lastYear === 0` without consulting the prior year. -/
theorem c3_churn_counterexample :
    miura ∈ HISTORICAL_TOP_CLIENTS_v12 ∧
    statusV17 (lastYearOf miura) (avgHistOf miura) = ClientStatus.CHURN ∧
    ¬(lastYearOf miura = 0 ∧ 0 < prevYearOf miura) := by
  have hlast : lastYearOf miura = 0 := by norm_num [lastYearOf, hval, miura]
  have hprev : prevYearOf miura = 0 := by norm_num [prevYearOf, hval, miura]
  have havg : avgHistOf miura = 28320 / 5 := by
    norm_num [avgHistOf, HISTORICAL_YEARS, hval, miura]
  refine ⟨by simp [miura, HISTORICAL_TOP_CLIENTS_v12], ?_, ?_⟩
  · rw [hlast, havg]
    norm_num [statusV17]
  · rw [hprev]
    rintro ⟨-, h⟩
    exact absurd h (by norm_num)

/-- C3 (amended): provided the historical average is non-negative (true
of every client table in the repository), the App.tsx classifier
assigns CHURN exactly when the current-year value is 0 and the
prior-year value is positive — the STAR test, though written first,
cannot fire on a zero current year; the part_003 classifier assigns
CHURN exactly when the current-year value is 0, never consulting the
prior year. -/
theorem c3_churn_amended (lastYear prevYear avgHist : ℚ) (h : 0 ≤ avgHist) :
    (statusV13 lastYear prevYear avgHist = ClientStatus.CHURN ↔
      lastYear = 0 ∧ 0 < prevYear) ∧
    (statusV17 lastYear avgHist = ClientStatus.CHURN ↔ lastYear = 0) := by
  have h12 : 0 ≤ avgHist * 1.2 := mul_nonneg h (by norm_num)
  have h115 : 0 ≤ avgHist * 1.15 := mul_nonneg h (by norm_num)
  constructor
  · unfold statusV13
    split_ifs with h1 h2 h3
    · simp only [false_iff]
      rintro ⟨rfl, -⟩
      exact absurd h1 (not_lt.mpr h12)
    · simp [h2]
    · simp only [false_iff]
      exact h2
    · simp only [false_iff]
      exact h2
  · unfold statusV17
    split_ifs with h1 h2 h3
    · simp only [false_iff]
      intro hz
      rw [hz] at h1
      exact absurd h1 (not_lt.mpr h115)
    · simp [h2]
    · simp only [false_iff]
      exact h2
    · simp only [false_iff]
      exact h2

/-- C3 (witness): the amended characterization applied at a zero current
year, positive prior year and non-negative average. -/
theorem c3_churn_amended_witness :
    statusV13 0 1 5664 = ClientStatus.CHURN ∧ statusV17 0 5664 = ClientStatus.CHURN :=
  ⟨(c3_churn_amended 0 1 5664 (by norm_num)).1.mpr ⟨rfl, by norm_num⟩,
   (c3_churn_amended 0 1 5664 (by norm_num)).2.mpr rfl⟩

/- ----------------------------------------------------------------- -/
/- C4: per-seller monthly attainment                                 -/
/- ----------------------------------------------------------------- -/

/-- C4: for every seller row of `sellersMonthSummary`, attainment is
realized/meta×100 when the seller's monthly target is positive, exactly
100 when the target is 0 and something was realized, and 0 when target
and realized are both 0 — a finite rational in every case. -/
theorem c4_seller_month_attainment (monthGoal : MonthlyGoal) (monthActual : SellerActual) :
    ∀ e ∈ sellersMonthSummary monthGoal monthActual,
      (0 < e.meta → e.atingimento = e.realizado / e.meta * 100) ∧
      (e.meta = 0 → 0 < e.realizado → e.atingimento = 100) ∧
      (e.meta = 0 → e.realizado = 0 → e.atingimento = 0) := by
  intro e he
  simp only [sellersMonthSummary, List.mem_map] at he
  obtain ⟨s, -, rfl⟩ := he
  dsimp only
  refine ⟨fun h1 => ?_, fun h1 h2 => ?_, fun h1 h2 => ?_⟩
  · rw [if_pos h1]
  · rw [if_neg (by rw [h1]; exact lt_irrefl 0), if_pos h2]
  · rw [if_neg (by rw [h1]; exact lt_irrefl 0), if_neg (by rw [h2]; exact lt_irrefl 0)]

/-- C4 (witness): the attainment characterization applied to the v1 row
of the January goal column with 12000 realized against a 24000 target,
giving 50%. -/
theorem c4_seller_month_attainment_witness :
    rowW ∈ sellersMonthSummary goalW actualW ∧ rowW.atingimento = rowW.realizado / rowW.meta * 100 := by
  have hmem : rowW ∈ sellersMonthSummary goalW actualW := by
    simp only [sellersMonthSummary, SELLERS, goalW, actualW, rowW, MonthlyGoal.get,
      SellerActual.get, List.map_cons, List.map_nil, List.mem_cons]
    refine Or.inr (Or.inl ?_)
    norm_num
  exact ⟨hmem, (c4_seller_month_attainment goalW actualW rowW hmem).1 (by norm_num [rowW])⟩

/- ----------------------------------------------------------------- -/
/- C6: opportunity cost                                              -/
/- ----------------------------------------------------------------- -/

/-- C6: for any projection table, a client's opportunity-cost
contribution is its historical annual average (pre-aggregated total over
the 5-year count) exactly when its target-year value reads 0, and 0
otherwise; the total is the sum over all clients and is non-negative. -/
theorem c6_opportunity_cost (proj : String → Option ℚ) :
    0 ≤ totalOpportunityCost proj ∧
    (∀ c ∈ HISTORICAL_TOP_CLIENTS,
      ((proj c.id).getD 0 = 0 → opportunityCost c proj = mediaHistoricaAnual c) ∧
      ((proj c.id).getD 0 ≠ 0 → opportunityCost c proj = 0)) := by
  have hagg : ∀ c ∈ HISTORICAL_TOP_CLIENTS, 0 ≤ c.aggregate := by
    intro c hc
    fin_cases hc <;> norm_num
  constructor
  · apply List.sum_nonneg
    intro x hx
    simp only [List.mem_map] at hx
    obtain ⟨c, hc, rfl⟩ := hx
    rw [opportunityCost]
    split_ifs
    · rw [mediaHistoricaAnual]
      have := hagg c hc
      positivity
    · exact le_refl 0
  · intro c _
    constructor
    · intro h
      simp [opportunityCost, h]
    · intro h
      simp [opportunityCost, h]

/-- C6 (witness): the contribution rules applied to the first client with
a projection of 5 (non-idle, contributes 0) and to the total at the
everywhere-absent projection table (non-negative). -/
theorem c6_opportunity_cost_witness :
    0 ≤ totalOpportunityCost (fun _ => none) ∧
    opportunityCost ⟨"c1", "FERTIPAR BANDEIRANTES LTDA", 1651134.13⟩ (fun _ => some 5) = 0 :=
  ⟨(c6_opportunity_cost (fun _ => none)).1,
   ((c6_opportunity_cost (fun _ => some 5)).2 ⟨"c1", "FERTIPAR BANDEIRANTES LTDA", 1651134.13⟩
     (by simp [HISTORICAL_TOP_CLIENTS])).2 (by norm_num)⟩

/- ----------------------------------------------------------------- -/
/- C9: annual attainment is a ratio of sums                          -/
/- ----------------------------------------------------------------- -/

/-- C9 (counterexample): seller v3 belongs to the enumerated seller set
but its monthly targets are all 0 in the static tables, so its annual
target sum is 0.  With 5000 realized in January, part_002's annual
attainment is 100 and App.tsx's is 0 — and the claimed ratio of sums is
not even a finite number there (realized/0 is Infinity in JS) — so the
"for every seller" claim fails at v3. -/
theorem c9_annual_ratio_counterexample :
    SellerId.v3 ∈ SELLERS ∧
    metaTotalSeller SellerId.v3 = 0 ∧
    realizadoTotalSeller SellerId.v3 oC9v3 = 5000 ∧
    atingimentoAnual SellerId.v3 oC9v3 = 100 ∧
    atingimentoVendedorApp SellerId.v3 oC9v3 = 0 ∧
    jsDiv (realizadoTotalSeller SellerId.v3 oC9v3) (metaTotalSeller SellerId.v3) =
      JsNum.inf false ∧
    atingimentoAnual SellerId.v3 oC9v3 ≠
      realizadoTotalSeller SellerId.v3 oC9v3 / metaTotalSeller SellerId.v3 * 100 := by
  have hmeta : metaTotalSeller SellerId.v3 = 0 := by
    simp [metaTotalSeller, TARGET_GOALS, MONTHS, INDIVIDUAL_METAS, getOr, olook,
      MonthlyGoal.get]
  have hreal : realizadoTotalSeller SellerId.v3 oC9v3 = 5000 := by
    simp [realizadoTotalSeller, oC9v3, SellerActual.get]
  refine ⟨by simp [SELLERS], hmeta, hreal, ?_, ?_, ?_, ?_⟩
  · rw [atingimentoAnual, hmeta, hreal]
    norm_num
  · rw [atingimentoVendedorApp, hmeta]
    norm_num
  · rw [hmeta, hreal, jsDiv]
    norm_num
  · rw [atingimentoAnual, hmeta, hreal]
    norm_num

/-- C9 (amended): per-seller annual attainment in both engines is the
ratio of the summed realized values to the summed monthly targets times
100 whenever the seller's annual target sum is positive (true of syllas,
v1 and v2 in the static tables) — and it differs from the average of the
twelve per-month ratios, witnessed by v1 realizing 12000 in January
only.  For a seller whose annual target sum is 0 (v3), the ratio of
sums is not computed: part_002 yields 100 when anything was realized
and 0 otherwise, and App.tsx yields 0. -/
theorem c9_annual_ratio_of_sums :
    (∀ (k : SellerId) (o : Obj SellerActual), 0 < metaTotalSeller k →
      atingimentoAnual k o = realizadoTotalSeller k o / metaTotalSeller k * 100 ∧
      atingimentoVendedorApp k o = realizadoVendedor k o / metaTotalSeller k * 100) ∧
    (∀ (k : SellerId) (o : Obj SellerActual), metaTotalSeller k = 0 →
      (0 < realizadoTotalSeller k o → atingimentoAnual k o = 100) ∧
      (¬0 < realizadoTotalSeller k o → atingimentoAnual k o = 0) ∧
      atingimentoVendedorApp k o = 0) ∧
    atingimentoAnual SellerId.v1 oC9 ≠ specAvgOfMonthlyRatios SellerId.v1 oC9 := by
  refine ⟨?_, ?_, ?_⟩
  · intro k o hk
    exact ⟨by rw [atingimentoAnual, if_pos hk], by rw [atingimentoVendedorApp, if_pos hk]⟩
  · intro k o hk
    have hneg : ¬0 < metaTotalSeller k := by rw [hk]; exact lt_irrefl 0
    refine ⟨fun hr => ?_, fun hr => ?_, ?_⟩
    · rw [atingimentoAnual, if_neg hneg, if_pos hr]
    · rw [atingimentoAnual, if_neg hneg, if_neg hr]
    · rw [atingimentoVendedorApp, if_neg hneg]
  · have hmeta : metaTotalSeller SellerId.v1 = 461000 := by
      simp [metaTotalSeller, TARGET_GOALS, MONTHS, INDIVIDUAL_METAS, getOr, olook,
        MonthlyGoal.get]
      norm_num
    have hreal : realizadoTotalSeller SellerId.v1 oC9 = 12000 := by
      simp [realizadoTotalSeller, oC9, SellerActual.get]
    have havg : specAvgOfMonthlyRatios SellerId.v1 oC9 = 25 / 6 := by
      simp [specAvgOfMonthlyRatios, oC9, TARGET_GOALS, MONTHS, INDIVIDUAL_METAS, getOr,
        olook, MonthlyGoal.get, SellerActual.get, zeroSA]
      norm_num
    rw [atingimentoAnual, hmeta, hreal, havg, if_pos (by norm_num : (0:ℚ) < 461000)]
    norm_num

/-- C9 (witness): the ratio-of-sums formula applied at v1 and the
January-only data, its positive-target hypothesis discharged. -/
theorem c9_annual_ratio_of_sums_witness :
    atingimentoAnual SellerId.v1 oC9 =
      realizadoTotalSeller SellerId.v1 oC9 / metaTotalSeller SellerId.v1 * 100 :=
  (c9_annual_ratio_of_sums.1 SellerId.v1 oC9 (by
    simp [metaTotalSeller, TARGET_GOALS, MONTHS, INDIVIDUAL_METAS, getOr, olook,
      MonthlyGoal.get]
    norm_num)).1

/- ----------------------------------------------------------------- -/
/- C5: Pareto curve                                                  -/
/- ----------------------------------------------------------------- -/

theorem paretoGo_all_zero {total : ℚ} (h : ¬0 < total) :
    ∀ (l : List ℚ) (cum : ℚ), ∀ p ∈ paretoGo total cum l, p = 0 := by
  intro l
  induction l with
  | nil => intro cum p hp; simp [paretoGo] at hp
  | cons v vs ih =>
      intro cum p hp
      simp only [paretoGo, if_neg h, List.mem_cons] at hp
      rcases hp with rfl | hp
      · rfl
      · exact ih (cum + v) p hp

theorem paretoGo_lb {total : ℚ} (ht : 0 < total) :
    ∀ (l : List ℚ) (cum : ℚ), (∀ v ∈ l, 0 ≤ v) →
      ∀ p ∈ paretoGo total cum l, cum / total * 100 ≤ p := by
  intro l
  induction l with
  | nil => intro cum _ p hp; simp [paretoGo] at hp
  | cons v vs ih =>
      intro cum hnn p hp
      have hv : 0 ≤ v := hnn v (List.mem_cons_self v vs)
      simp only [paretoGo, if_pos ht, List.mem_cons] at hp
      have hstep : cum / total * 100 ≤ (cum + v) / total * 100 := by
        have : cum / total ≤ (cum + v) / total :=
          (div_le_div_iff_of_pos_right ht).mpr (by linarith)
        linarith
      rcases hp with rfl | hp
      · exact hstep
      · exact le_trans hstep
          (ih (cum + v) (fun x hx => hnn x (List.mem_cons_of_mem v hx)) p hp)

theorem paretoGo_ub {total : ℚ} (ht : 0 < total) :
    ∀ (l : List ℚ) (cum : ℚ), (∀ v ∈ l, 0 ≤ v) → cum + l.sum ≤ total →
      ∀ p ∈ paretoGo total cum l, p ≤ 100 := by
  intro l
  induction l with
  | nil => intro cum _ _ p hp; simp [paretoGo] at hp
  | cons v vs ih =>
      intro cum hnn hle p hp
      have hsum : 0 ≤ vs.sum :=
        List.sum_nonneg fun x hx => hnn x (List.mem_cons_of_mem v hx)
      have hle2 : (cum + v) + vs.sum ≤ total := by
        rw [List.sum_cons] at hle; linarith
      simp only [paretoGo, if_pos ht, List.mem_cons] at hp
      rcases hp with rfl | hp
      · have h1 : (cum + v) / total ≤ 1 := (div_le_one ht).mpr (by linarith)
        linarith
      · exact ih (cum + v) (fun x hx => hnn x (List.mem_cons_of_mem v hx)) hle2 p hp

theorem paretoGo_chain (total : ℚ) :
    ∀ (l : List ℚ) (cum : ℚ), (∀ v ∈ l, 0 ≤ v) →
      List.Chain' (· ≤ ·) (paretoGo total cum l) := by
  intro l
  induction l with
  | nil => intro cum _; simp [paretoGo]
  | cons v vs ih =>
      intro cum hnn
      have htail : List.Chain' (· ≤ ·) (paretoGo total (cum + v) vs) :=
        ih (cum + v) fun x hx => hnn x (List.mem_cons_of_mem v hx)
      rw [paretoGo, List.chain'_cons']
      refine ⟨?_, htail⟩
      intro y hy
      cases vs with
      | nil => simp [paretoGo] at hy
      | cons v2 vs2 =>
          have hv2 : 0 ≤ v2 := hnn v2 (List.mem_cons_of_mem v (List.mem_cons_self v2 vs2))
          simp only [paretoGo, List.head?_cons, Option.mem_def, Option.some.injEq] at hy
          subst hy
          by_cases ht : 0 < total
          · rw [if_pos ht, if_pos ht]
            have : (cum + v) / total ≤ (cum + v + v2) / total :=
              (div_le_div_iff_of_pos_right ht).mpr (by linarith)
            linarith
          · rw [if_neg ht, if_neg ht]

theorem paretoGo_getLast {total : ℚ} (ht : 0 < total) :
    ∀ (l : List ℚ) (cum : ℚ), l ≠ [] →
      (paretoGo total cum l).getLast? = some ((cum + l.sum) / total * 100) := by
  intro l
  induction l with
  | nil => intro cum h; exact absurd rfl h
  | cons v vs ih =>
      intro cum _
      cases vs with
      | nil => simp [paretoGo, if_pos ht]
      | cons v2 vs2 =>
          have htail := ih (cum + v) (by simp)
          have hstep : paretoGo total cum (v :: v2 :: vs2) =
              (if 0 < total then (cum + v) / total * 100 else 0)
                :: (if 0 < total then (cum + v + v2) / total * 100 else 0)
                :: paretoGo total (cum + v + v2) vs2 := rfl
          have hstep2 : paretoGo total (cum + v) (v2 :: vs2) =
              (if 0 < total then (cum + v + v2) / total * 100 else 0)
                :: paretoGo total (cum + v + v2) vs2 := rfl
          rw [hstep2] at htail
          rw [hstep, List.getLast?_cons_cons, htail]
          congr 1
          simp only [List.sum_cons]
          ring

/-- C5 (counterexample): part_002's `paretoData` divides by the grand
total without a guard, so on an all-zero reference list every cumulative
element is NaN (0/0), not the 0 the claim requires. -/
theorem c5_pareto_counterexample :
    ([(0 : ℚ), 0].sum = 0) ∧
    paretoData002 [0, 0] = [JsNum.nan, JsNum.nan] ∧
    JsNum.nan ≠ JsNum.num 0 := by
  refine ⟨by norm_num, ?_, by simp⟩
  have h0 : (([(0 : ℚ), 0].take 1).sum = 0) ∧ (([(0 : ℚ), 0].take 2).sum = 0) ∧
      ([(0 : ℚ), 0].sum = 0) := by norm_num
  simp [paretoData002, jsDiv, jsMulPos, List.range_succ]

/-- C5 (amended): for the guarded `paretoData` of part_003 and any
non-negative reference values, the cumulative-percentage sequence is
non-decreasing, lies in [0,100], ends at exactly 100 when the grand
total is positive, and is identically 0 when the grand total is 0; the
unguarded part_002 variant instead produces NaN throughout when the
grand total is 0. -/
theorem c5_pareto_properties (values : List ℚ) (hnn : ∀ v ∈ values, 0 ≤ v) :
    List.Chain' (· ≤ ·) (paretoData values) ∧
    (∀ p ∈ paretoData values, 0 ≤ p ∧ p ≤ 100) ∧
    (0 < values.sum → (paretoData values).getLast? = some 100) ∧
    (values.sum = 0 → ∀ p ∈ paretoData values, p = 0) := by
  refine ⟨paretoGo_chain values.sum values 0 hnn, ?_, ?_, ?_⟩
  · intro p hp
    by_cases ht : 0 < values.sum
    · constructor
      · have := paretoGo_lb ht values 0 hnn p hp
        rw [zero_div, zero_mul] at this
        exact this
      · exact paretoGo_ub ht values 0 hnn (by rw [zero_add]) p hp
    · rw [paretoGo_all_zero ht values 0 p hp]
      norm_num
  · intro ht
    have hne : values ≠ [] := by
      rintro rfl
      rw [List.sum_nil] at ht
      exact lt_irrefl 0 ht
    rw [paretoData, paretoGo_getLast ht values 0 hne, zero_add,
      div_self (ne_of_gt ht), one_mul]
  · intro hz p hp
    exact paretoGo_all_zero (by rw [hz]; exact lt_irrefl 0) values 0 p hp

/-- C5 (witness): the Pareto properties at the spec's example list
[600, 300, 100] — in particular the curve ends at exactly 100. -/
theorem c5_pareto_properties_witness :
    (paretoData [600, 300, 100]).getLast? = some 100 :=
  (c5_pareto_properties [600, 300, 100] (by norm_num)).2.2.1 (by norm_num)

/- ----------------------------------------------------------------- -/
/- C10: edit framing                                                 -/
/- ----------------------------------------------------------------- -/

theorem SellerActual.get_set_same (a : SellerActual) (s : SellerId) (x : ℚ) :
    (a.set s x).get s = x := by
  cases s <;> rfl

theorem SellerActual.get_set_other (a : SellerActual) {s s2 : SellerId} (x : ℚ)
    (h : s2 ≠ s) : (a.set s x).get s2 = a.get s2 := by
  cases s <;> cases s2 <;> first
    | rfl
    | exact absurd rfl h

/-- C10: a revenue edit for one (year, month, seller) cell rewrites only
that cell: the operational section and the client projections are
untouched, every other year keeps its record, every other month of the
edited year keeps its record, every other seller of the edited month
keeps its value, and no existing key disappears. -/
theorem c10_edit_frame (db : SKGDatabase) (y m : String) (s : SellerId) (num : ℚ)
    (ym : Obj SellerActual) (h : olook db.revenue y = some ym) :
    ∃ db2, handleRevenueInput db y m s num = some db2 ∧
      db2.operational = db.operational ∧
      db2.t20Projections = db.t20Projections ∧
      (∀ y2, y2 ≠ y → olook db2.revenue y2 = olook db.revenue y2) ∧
      (∀ y2, olook db.revenue y2 ≠ none → olook db2.revenue y2 ≠ none) ∧
      ∃ ym2, olook db2.revenue y = some ym2 ∧
        (∀ m2, m2 ≠ m → olook ym2 m2 = olook ym m2) ∧
        (∀ m2, olook ym m2 ≠ none → olook ym2 m2 ≠ none) ∧
        ∃ a, olook ym2 m = some a ∧ a.get s = num ∧
          ∀ s2, s2 ≠ s → a.get s2 = ((olook ym m).getD zeroSA).get s2 := by
  rw [handleRevenueInput, h]
  refine ⟨_, rfl, rfl, rfl, ?_, ?_, ?_⟩
  · intro y2 hy2
    simp only
    rw [olook_objSet, if_neg hy2]
  · intro y2 hy2
    simp only
    rw [olook_objSet]
    by_cases hcase : y2 = y
    · rw [if_pos hcase]; exact Option.some_ne_none _
    · rw [if_neg hcase]; exact hy2
  · refine ⟨objSet ym m (((olook ym m).getD zeroSA).set s num), ?_, ?_, ?_,
      ((olook ym m).getD zeroSA).set s num, ?_, ?_, ?_⟩
    · simp only
      rw [olook_objSet, if_pos rfl]
    · intro m2 hm2
      rw [olook_objSet, if_neg hm2]
    · intro m2 hm2
      rw [olook_objSet]
      by_cases hcase : m2 = m
      · rw [if_pos hcase]; exact Option.some_ne_none _
      · rw [if_neg hcase]; exact hm2
    · rw [olook_objSet, if_pos rfl]
    · exact SellerActual.get_set_same _ s num
    · intro s2 hs2
      exact SellerActual.get_set_other _ num hs2

/-- C10 (witness): the frame theorem applied to the default-hydrated
snapshot, editing (2026, Jan, v1) to 5. -/
theorem c10_edit_frame_witness :
    ∃ db2, handleRevenueInput (dbInit none) "2026" "Jan" SellerId.v1 5 = some db2 ∧
      db2.operational = (dbInit none).operational ∧
      db2.t20Projections = (dbInit none).t20Projections ∧
      (∀ y2, y2 ≠ "2026" → olook db2.revenue y2 = olook (dbInit none).revenue y2) ∧
      (∀ y2, olook (dbInit none).revenue y2 ≠ none → olook db2.revenue y2 ≠ none) ∧
      ∃ ym2, olook db2.revenue "2026" = some ym2 ∧
        (∀ m2, m2 ≠ "Jan" → olook ym2 m2 = olook monthsZeroSA m2) ∧
        (∀ m2, olook monthsZeroSA m2 ≠ none → olook ym2 m2 ≠ none) ∧
        ∃ a, olook ym2 "Jan" = some a ∧ a.get SellerId.v1 = 5 ∧
          ∀ s2, s2 ≠ SellerId.v1 →
            a.get s2 = ((olook monthsZeroSA "Jan").getD zeroSA).get s2 :=
  c10_edit_frame (dbInit none) "2026" "Jan" SellerId.v1 5 monthsZeroSA
    (olook_map_keys (fun _ => monthsZeroSA) YEARS "2026" (by decide))

/- ----------------------------------------------------------------- -/
/- C7: the normalizer is total and fails to 0                        -/
/- ----------------------------------------------------------------- -/

/-- C7: for every input string the normalizer returns a number (never
NaN): it cleans the text (stripping the currency characters, whitespace
and thousands dots and converting the first comma to a dot), parses it
with `parseFloat`, and yields 0 exactly when that parse fails; in
particular the empty string and plain garbage normalize to 0 and a
locale-formatted currency amount parses to its value. -/
theorem c7_normalizer_total :
    (∀ s : String, parseNum s ≠ JsNum.nan ∧
      (parseFloatJs (cleanStr s) = JsNum.nan → parseNum s = JsNum.num 0)) ∧
    parseNum strEmpty = JsNum.num 0 ∧
    parseNum strAbc = JsNum.num 0 ∧
    parseNum strBRL = JsNum.num (1234.56 : ℚ) := by
  refine ⟨?_, ?_, ?_, ?_⟩
  · intro s
    constructor
    · rw [parseNum]
      rcases h : parseFloatJs (cleanStr s) with q | b | _ <;> simp
    · intro h
      rw [parseNum, h]
  · simp [parseNum, parseFloatJs, parseFloatList, cleanStr, strEmpty, cleanChars, cleanKeep, replFirstComma,
      parseMag, parseMantissa, infCheck, INF_CHARS, expVal, negJs, valNat, digitVal, fracVal]
  · simp [parseNum, parseFloatJs, parseFloatList, cleanStr, strAbc, cleanChars, cleanKeep, replFirstComma,
      parseMag, parseMantissa, infCheck, INF_CHARS, expVal, negJs, valNat, digitVal, fracVal]
  · simp [parseNum, parseFloatJs, parseFloatList, cleanStr, strBRL, cleanChars, cleanKeep, replFirstComma,
      parseMag, parseMantissa, infCheck, INF_CHARS, expVal, negJs, valNat, digitVal, fracVal]
    norm_num

/-- C7 (witness): the failure-to-zero rule applied at the malformed
input, its parse-failure hypothesis discharged by computation. -/
theorem c7_normalizer_total_witness : parseNum strAbc = JsNum.num 0 :=
  (c7_normalizer_total.1 strAbc).2 (by
    simp [parseFloatJs, parseFloatList, cleanStr, strAbc, cleanChars, cleanKeep, replFirstComma,
      parseMag, parseMantissa, infCheck, INF_CHARS])

/- ----------------------------------------------------------------- -/
/- C8: digit-string lemmas                                           -/
/- ----------------------------------------------------------------- -/

theorem digit_props : ∀ c ∈ DIGITS, c.isDigit = true ∧ c.isWhitespace = false ∧
    cleanKeep c = true ∧ c ≠ ',' ∧ c ≠ '.' ∧ c ≠ '-' ∧ c ≠ '+' ∧ c ≠ 'I' ∧
    (c == '0') = (c = '0' : Bool) := by
  decide

theorem digitChar_mem {d : ℕ} (h : d < 10) : digitChar d ∈ DIGITS := by
  interval_cases d <;> decide

theorem digitVal_digitChar {d : ℕ} (h : d < 10) : digitVal (digitChar d) = d := by
  interval_cases d <;> decide

theorem natDigitsGo_append :
    ∀ (fuel n : ℕ) (acc : List Char),
      natDigitsGo fuel n acc = natDigitsGo fuel n [] ++ acc := by
  intro fuel
  induction fuel with
  | zero => intro n acc; rfl
  | succ fuel ih =>
      intro n acc
      by_cases h : n < 10
      · simp [natDigitsGo, h]
      · rw [natDigitsGo, if_neg h, ih (n / 10) (digitChar (n % 10) :: acc),
          natDigitsGo, if_neg h, ih (n / 10) [digitChar (n % 10)], List.append_assoc]
        rfl

theorem natDigitsGo_fuel :
    ∀ (n f1 f2 : ℕ), n < f1 → n < f2 → natDigitsGo f1 n [] = natDigitsGo f2 n [] := by
  intro n
  induction n using Nat.strong_induction_on with
  | _ n ih =>
      intro f1 f2 h1 h2
      cases f1 with
      | zero => omega
      | succ f1 =>
          cases f2 with
          | zero => omega
          | succ f2 =>
              by_cases h : n < 10
              · simp [natDigitsGo, h]
              · rw [natDigitsGo, if_neg h, natDigitsGo, if_neg h,
                  natDigitsGo_append f1 (n / 10) _, natDigitsGo_append f2 (n / 10) _,
                  ih (n / 10) (by omega) f1 f2 (by omega) (by omega)]

theorem natDigits_lt10 {n : ℕ} (h : n < 10) : natDigits n = [digitChar n] := by
  simp [natDigits, natDigitsGo, h]

theorem natDigits_ge10 {n : ℕ} (h : 10 ≤ n) :
    natDigits n = natDigits (n / 10) ++ [digitChar (n % 10)] := by
  rw [natDigits, natDigitsGo, if_neg (by omega), natDigitsGo_append,
    natDigitsGo_fuel (n / 10) n (n / 10 + 1) (by omega) (by omega)]
  rfl

theorem natDigits_mem_digits : ∀ (n : ℕ), ∀ c ∈ natDigits n, c ∈ DIGITS := by
  intro n
  induction n using Nat.strong_induction_on with
  | _ n ih =>
      intro c hc
      by_cases h : n < 10
      · rw [natDigits_lt10 h] at hc
        rcases List.mem_singleton.mp hc with rfl
        exact digitChar_mem h
      · rw [natDigits_ge10 (by omega)] at hc
        rcases List.mem_append.mp hc with h2 | h2
        · exact ih (n / 10) (by omega) c h2
        · rcases List.mem_singleton.mp h2 with rfl
          exact digitChar_mem (by omega)

theorem natDigits_ne_nil (n : ℕ) : natDigits n ≠ [] := by
  by_cases h : n < 10
  · rw [natDigits_lt10 h]; simp
  · rw [natDigits_ge10 (by omega)]; simp

theorem valNat_append_single (ds : List Char) (c : Char) :
    valNat (ds ++ [c]) = valNat ds * 10 + digitVal c := by
  rw [valNat, List.foldl_append]
  rfl

theorem valNat_natDigits : ∀ (n : ℕ), valNat (natDigits n) = n := by
  intro n
  induction n using Nat.strong_induction_on with
  | _ n ih =>
      by_cases h : n < 10
      · rw [natDigits_lt10 h]
        show 0 * 10 + digitVal (digitChar n) = n
        rw [digitVal_digitChar h]
        omega
      · rw [natDigits_ge10 (by omega), valNat_append_single,
          ih (n / 10) (by omega), digitVal_digitChar (by omega : n % 10 < 10)]
        omega

theorem takeWhile_of_all {p : Char → Bool} :
    ∀ xs : List Char, (∀ c ∈ xs, p c = true) →
      xs.takeWhile p = xs ∧ xs.dropWhile p = [] := by
  intro xs
  induction xs with
  | nil => intro _; exact ⟨rfl, rfl⟩
  | cons c cs ih =>
      intro h
      have hc : p c = true := h c (List.mem_cons_self c cs)
      have htail := ih fun x hx => h x (List.mem_cons_of_mem c hx)
      rw [List.takeWhile_cons, List.dropWhile_cons]
      simp [hc, htail.1, htail.2]

theorem takeWhile_append_of_all {p : Char → Bool} :
    ∀ (xs ys : List Char), (∀ c ∈ xs, p c = true) →
      (xs ++ ys).takeWhile p = xs ++ ys.takeWhile p ∧
      (xs ++ ys).dropWhile p = ys.dropWhile p := by
  intro xs ys
  induction xs with
  | nil => intro _; exact ⟨rfl, rfl⟩
  | cons c cs ih =>
      intro h
      have hc : p c = true := h c (List.mem_cons_self c cs)
      have htail := ih fun x hx => h x (List.mem_cons_of_mem c hx)
      rw [List.cons_append, List.takeWhile_cons, List.dropWhile_cons]
      simp [hc, htail.1, htail.2]

theorem cleanChars_of_digits {ds : List Char} (h : ∀ c ∈ ds, c ∈ DIGITS) :
    cleanChars ds = ds :=
  List.filter_eq_self.mpr fun c hc => (digit_props c (h c hc)).2.2.1

theorem cleanChars_groupRevAux :
    ∀ (ds : List Char) (k : ℕ), (∀ c ∈ ds, c ∈ DIGITS) →
      cleanChars (groupRevAux ds k) = ds := by
  intro ds
  induction ds with
  | nil => intro k _; rfl
  | cons c cs ih =>
      intro k h
      have hc : cleanKeep c = true := (digit_props c (h c (List.mem_cons_self c cs))).2.2.1
      have htail : ∀ k2, cleanChars (groupRevAux cs k2) = cs :=
        fun k2 => ih k2 fun x hx => h x (List.mem_cons_of_mem c hx)
      rw [groupRevAux]
      by_cases hk : k = 3
      · rw [if_pos hk]
        cases cs with
        | nil => simp [cleanChars, List.filter_cons, hc]
        | cons c2 cs2 =>
            have : (c2 :: cs2).isEmpty = false := rfl
            rw [this]
            simp only [Bool.false_eq_true, if_false, cleanChars, List.filter_cons, hc,
              show cleanKeep '.' = false from rfl]
            rw [show List.filter cleanKeep (groupRevAux (c2 :: cs2) 1) =
              cleanChars (groupRevAux (c2 :: cs2) 1) from rfl, htail 1, if_pos trivial]
      · rw [if_neg hk]
        simp only [cleanChars, List.filter_cons, hc]
        rw [show List.filter cleanKeep (groupRevAux cs (k + 1)) =
          cleanChars (groupRevAux cs (k + 1)) from rfl, htail (k + 1), if_pos trivial]

theorem cleanChars_reverse (ds : List Char) :
    cleanChars ds.reverse = (cleanChars ds).reverse := by
  rw [cleanChars, cleanChars, List.filter_reverse]

theorem cleanChars_groupDigits {ds : List Char} (h : ∀ c ∈ ds, c ∈ DIGITS) :
    cleanChars (groupDigits ds) = ds := by
  rw [groupDigits, cleanChars_reverse,
    cleanChars_groupRevAux ds.reverse 1 (fun c hc => h c (List.mem_reverse.mp hc)),
    List.reverse_reverse]

theorem replFirstComma_no_comma :
    ∀ xs : List Char, (∀ c ∈ xs, c ≠ ',') → replFirstComma xs = xs := by
  intro xs
  induction xs with
  | nil => intro _; rfl
  | cons c cs ih =>
      intro h
      rw [replFirstComma, if_neg (h c (List.mem_cons_self c cs)),
        ih fun x hx => h x (List.mem_cons_of_mem c hx)]

theorem replFirstComma_append :
    ∀ (xs ys : List Char), (∀ c ∈ xs, c ≠ ',') →
      replFirstComma (xs ++ ',' :: ys) = xs ++ '.' :: ys := by
  intro xs ys
  induction xs with
  | nil => intro _; simp [replFirstComma]
  | cons c cs ih =>
      intro h
      rw [List.cons_append, replFirstComma, if_neg (h c (List.mem_cons_self c cs)),
        ih fun x hx => h x (List.mem_cons_of_mem c hx)]
      rfl

theorem fracVal_all_zero : ∀ zs : List Char, (∀ c ∈ zs, c = '0') → fracVal zs = 0 := by
  intro zs
  induction zs with
  | nil => intro _; rfl
  | cons c cs ih =>
      intro h
      rcases h c (List.mem_cons_self c cs) with rfl
      rw [fracVal, List.foldr_cons,
        show List.foldr (fun c a => ((digitVal c : ℚ) + a) / 10) 0 cs = fracVal cs from rfl,
        ih fun x hx => h x (List.mem_cons_of_mem _ hx)]
      norm_num [show digitVal '0' = 0 from rfl]

theorem fracVal_append_zeros {zs : List Char} (hz : ∀ c ∈ zs, c = '0') (ds : List Char) :
    fracVal (ds ++ zs) = fracVal ds := by
  rw [fracVal, List.foldr_append,
    show List.foldr (fun c a => ((digitVal c : ℚ) + a) / 10) 0 zs = fracVal zs from rfl,
    fracVal_all_zero zs hz]
  rfl

theorem stripZeros_decomp (ds : List Char) :
    ∃ k, ds = stripZeros ds ++ List.replicate k '0' := by
  have hsplit := List.takeWhile_append_dropWhile (fun c => c == '0') ds.reverse
  have h1 : ds = (ds.reverse.dropWhile (fun c => c == '0')).reverse ++
      (ds.reverse.takeWhile (fun c => c == '0')).reverse := by
    conv_lhs => rw [← List.reverse_reverse ds, ← hsplit]
    rw [List.reverse_append]
  have h2 : (ds.reverse.takeWhile (fun c => c == '0')).reverse =
      List.replicate (ds.reverse.takeWhile (fun c => c == '0')).reverse.length '0' := by
    apply List.eq_replicate_of_mem
    intro b hb
    have hb2 : b ∈ List.takeWhile (fun c => c == '0') ds.reverse := List.mem_reverse.mp hb
    have hpb := List.mem_takeWhile_imp hb2
    exact eq_of_beq hpb
  refine ⟨(ds.reverse.takeWhile (fun c => c == '0')).reverse.length, ?_⟩
  conv_lhs => rw [h1]
  rw [stripZeros]
  conv_lhs => rw [h2]

theorem fracVal_stripZeros (ds : List Char) : fracVal (stripZeros ds) = fracVal ds := by
  obtain ⟨k, hk⟩ := stripZeros_decomp ds
  conv_rhs => rw [hk]
  rw [fracVal_append_zeros fun c hc => List.eq_of_mem_replicate hc]

theorem mem_stripZeros {c : Char} {ds : List Char} (h : c ∈ stripZeros ds) : c ∈ ds := by
  rw [stripZeros] at h
  have h2 := List.mem_reverse.mp h
  have h3 := List.dropWhile_subset (fun c => c == '0') h2
  exact List.mem_reverse.mp h3

theorem pad3_mem_digits {f : ℕ} (h : f < 1000) : ∀ c ∈ pad3 f, c ∈ DIGITS := by
  intro c hc
  simp only [pad3, List.mem_cons, List.not_mem_nil, or_false] at hc
  rcases hc with rfl | rfl | rfl <;> exact digitChar_mem (by omega)

theorem fracVal_pad3 {f : ℕ} (h : f < 1000) : fracVal (pad3 f) = (f : ℚ) / 1000 := by
  rw [pad3, fracVal]
  simp only [List.foldr_cons, List.foldr_nil]
  rw [digitVal_digitChar (by omega : f / 100 < 10),
    digitVal_digitChar (by omega : f / 10 % 10 < 10),
    digitVal_digitChar (by omega : f % 10 < 10)]
  have hf : f = 100 * (f / 100) + 10 * (f / 10 % 10) + f % 10 := by omega
  conv_rhs => rw [hf]
  push_cast
  field_simp
  ring

/- ----------------------------------------------------------------- -/
/- C8: parsing rendered strings back                                 -/
/- ----------------------------------------------------------------- -/

theorem parseMantissa_digits {ds : List Char} (h1 : ds ≠ []) (h2 : ∀ c ∈ ds, c ∈ DIGITS) :
    parseMantissa ds = some ((valNat ds : ℚ), []) := by
  have hall : ∀ c ∈ ds, Char.isDigit c = true := fun c hc => (digit_props c (h2 c hc)).1
  have htake := takeWhile_of_all ds hall
  have hne : ds.isEmpty = false := by
    obtain ⟨c, cs, rfl⟩ := List.exists_cons_of_ne_nil h1
    rfl
  simp only [parseMantissa, htake.1, htake.2, hne]
  simp

theorem parseMantissa_digits_frac {ds fds : List Char} (h1 : ds ≠ [])
    (h2 : ∀ c ∈ ds, c ∈ DIGITS) (h3 : ∀ c ∈ fds, c ∈ DIGITS) :
    parseMantissa (ds ++ '.' :: fds) = some ((valNat ds : ℚ) + fracVal fds, []) := by
  have hall : ∀ c ∈ ds, Char.isDigit c = true := fun c hc => (digit_props c (h2 c hc)).1
  have hall2 : ∀ c ∈ fds, Char.isDigit c = true := fun c hc => (digit_props c (h3 c hc)).1
  have happ := takeWhile_append_of_all ds ('.' :: fds) hall
  have hdot : Char.isDigit '.' = false := rfl
  have htake2 := takeWhile_of_all fds hall2
  have hne : ds.isEmpty = false := by
    obtain ⟨c, cs, rfl⟩ := List.exists_cons_of_ne_nil h1
    rfl
  have hd1 : (ds ++ '.' :: fds).takeWhile Char.isDigit = ds := by
    rw [happ.1, List.takeWhile_cons, hdot]
    simp
  have hd2 : (ds ++ '.' :: fds).dropWhile Char.isDigit = '.' :: fds := by
    rw [happ.2, List.dropWhile_cons, hdot]
    simp
  simp only [parseMantissa, hd1, hd2, htake2.1, htake2.2, hne]
  simp

theorem infCheck_digit {c : Char} (cs : List Char) (h : c ∈ DIGITS) :
    infCheck (c :: cs) = false := by
  rw [infCheck, decide_eq_false_iff_not]
  intro hcontra
  rw [List.take_succ_cons, INF_CHARS] at hcontra
  injection hcontra with hh _
  exact (digit_props c h).2.2.2.2.2.2.2.1 hh

theorem parseMag_digits {ds : List Char} (h1 : ds ≠ []) (h2 : ∀ c ∈ ds, c ∈ DIGITS) :
    parseMag ds = JsNum.num (valNat ds) := by
  obtain ⟨c, cs, rfl⟩ := List.exists_cons_of_ne_nil h1
  have hinf : infCheck (c :: cs) = false := infCheck_digit cs (h2 c (List.mem_cons_self c cs))
  rw [parseMag]
  simp only [hinf, Bool.false_eq_true, if_false]
  rw [parseMantissa_digits h1 h2]
  rfl

theorem parseMag_digits_frac {ds fds : List Char} (h1 : ds ≠ [])
    (h2 : ∀ c ∈ ds, c ∈ DIGITS) (h3 : ∀ c ∈ fds, c ∈ DIGITS) :
    parseMag (ds ++ '.' :: fds) = JsNum.num ((valNat ds : ℚ) + fracVal fds) := by
  obtain ⟨c, cs, rfl⟩ := List.exists_cons_of_ne_nil h1
  have hinf : infCheck ((c :: cs) ++ '.' :: fds) = false :=
    infCheck_digit _ (h2 c (List.mem_cons_self c cs))
  rw [parseMag]
  simp only [hinf, Bool.false_eq_true, if_false]
  rw [parseMantissa_digits_frac h1 h2 h3]
  rfl

theorem parseFloatList_cons_nonws {c : Char} {cs : List Char} (h : c.isWhitespace = false) :
    parseFloatList (c :: cs) =
      if c = '-' then negJs (parseMag cs)
      else if c = '+' then parseMag cs
      else parseMag (c :: cs) := by
  rw [parseFloatList, List.dropWhile_cons]
  simp [h]

theorem parseFloatList_digits {ds : List Char} (h1 : ds ≠ [])
    (h2 : ∀ c ∈ ds, c ∈ DIGITS) :
    parseFloatList ds = JsNum.num (valNat ds) := by
  obtain ⟨c, cs, rfl⟩ := List.exists_cons_of_ne_nil h1
  have hp := digit_props c (h2 c (List.mem_cons_self c cs))
  rw [parseFloatList_cons_nonws hp.2.1, if_neg hp.2.2.2.2.2.1, if_neg hp.2.2.2.2.2.2.1]
  exact parseMag_digits h1 h2

theorem parseFloatList_digits_frac {ds fds : List Char} (h1 : ds ≠ [])
    (h2 : ∀ c ∈ ds, c ∈ DIGITS) (h3 : ∀ c ∈ fds, c ∈ DIGITS) :
    parseFloatList (ds ++ '.' :: fds) = JsNum.num ((valNat ds : ℚ) + fracVal fds) := by
  obtain ⟨c, cs, rfl⟩ := List.exists_cons_of_ne_nil h1
  have hp := digit_props c (h2 c (List.mem_cons_self c cs))
  rw [List.cons_append, parseFloatList_cons_nonws hp.2.1, if_neg hp.2.2.2.2.2.1,
    if_neg hp.2.2.2.2.2.2.1, ← List.cons_append]
  exact parseMag_digits_frac h1 h2 h3

theorem roundMil_thousandths (n : ℕ) : roundMil ((n : ℚ) / 1000) = n := by
  have h1 : ((n : ℚ) / 1000) * 1000 + 1 / 2 = 1 / 2 + ((n : ℤ) : ℚ) := by
    push_cast
    field_simp
    ring
  rw [roundMil, h1, Int.floor_add_int]
  have h2 : Int.floor ((1 : ℚ) / 2) = 0 := by
    rw [Int.floor_eq_zero_iff]
    constructor <;> norm_num
  rw [h2]
  omega

theorem parseNum_of_num {s : String} {v : ℚ}
    (h : parseFloatJs (cleanStr s) = JsNum.num v) : parseNum s = JsNum.num v := by
  rw [parseNum, h]

/-- C8 (counterexample): the round trip through the displayed canonical
form is not the identity.  The edit fields render non-positive values as
the empty string, so the normalized value -5 comes back as 0; and the
locale rendering keeps at most three fraction digits, so the normalized
value of the input 0,0005 (= 1/2000) comes back as 0,001 (= 1/1000). -/
theorem c8_roundtrip_counterexample :
    parseNum strM5 = JsNum.num (-5) ∧
    parseNum (toCanonicalDisplay (-5)) = JsNum.num 0 ∧
    JsNum.num (0 : ℚ) ≠ JsNum.num (-5) ∧
    parseNum strP0005 = JsNum.num (1 / 2000) ∧
    parseNum (toCanonicalDisplay (1 / 2000)) = JsNum.num (1 / 1000) ∧
    JsNum.num ((1 : ℚ) / 1000) ≠ JsNum.num (1 / 2000) := by
  have hm5 : parseNum strM5 = JsNum.num (-5) := by
    simp [parseNum, parseFloatJs, parseFloatList, cleanStr, strM5, cleanChars, cleanKeep,
      replFirstComma, parseMag, parseMantissa, infCheck, INF_CHARS, expVal, negJs, valNat,
      digitVal, fracVal]
  have hdm5 : toCanonicalDisplay (-5) = "" := by norm_num [toCanonicalDisplay]
  have hds : toCanonicalDisplay (1 / 2000) = String.mk ['0', ',', '0', '0', '1'] := by
    have h2 : roundMil (1 / 2000) = 1 := by
      have : ((1 : ℚ) / 2000) * 1000 + 1 / 2 = 1 := by norm_num
      rw [roundMil, this]
      norm_num
    have h : renderPos (1 / 2000) = ['0', ',', '0', '0', '1'] := by
      rw [renderPos, h2]
      rfl
    rw [toCanonicalDisplay, if_pos (by norm_num : (0 : ℚ) < 1 / 2000), toLocalePtBR,
      if_neg (by norm_num : ¬((1 : ℚ) / 2000) < 0), h]
  refine ⟨hm5, ?_, by simp, ?_, ?_, by norm_num⟩
  · rw [hdm5]
    simp [parseNum, parseFloatJs, parseFloatList, cleanStr, cleanChars, cleanKeep,
      replFirstComma, parseMag, parseMantissa, infCheck, INF_CHARS]
  · simp [parseNum, parseFloatJs, parseFloatList, cleanStr, strP0005, cleanChars, cleanKeep,
      replFirstComma, parseMag, parseMantissa, infCheck, INF_CHARS, expVal, negJs, valNat,
      digitVal, fracVal]
    norm_num
  · rw [hds]
    simp [parseNum, parseFloatJs, parseFloatList, cleanStr, cleanChars, cleanKeep,
      replFirstComma, parseMag, parseMantissa, infCheck, INF_CHARS, expVal, negJs, valNat,
      digitVal, fracVal]
    norm_num

/-- C8 (amended): the normalizer is idempotent through the canonical
string form on the values the rendering is faithful for — every
normalized value that is positive and has at most three decimal places
(i.e. is n/1000 for a positive integer n) satisfies
normalize(toCanonicalString(q)) = q.  Non-positive values render as ''
(normalizing to 0) and a fourth decimal place is rounded away, the two
effects shown by the counterexample. -/
theorem c8_roundtrip (n : ℕ) (hn : 0 < n) :
    parseNum (toCanonicalDisplay ((n : ℚ) / 1000)) = JsNum.num ((n : ℚ) / 1000) := by
  have hq : 0 < (n : ℚ) / 1000 := by positivity
  have hround := roundMil_thousandths n
  have hdisp : toCanonicalDisplay ((n : ℚ) / 1000) = String.mk (renderPos ((n : ℚ) / 1000)) := by
    rw [toCanonicalDisplay, if_pos hq, toLocalePtBR, if_neg (not_lt.mpr hq.le)]
  have hrender : renderPos ((n : ℚ) / 1000) =
      groupDigits (natDigits (n / 1000)) ++
        (if n % 1000 = 0 then [] else ',' :: stripZeros (pad3 (n % 1000))) := by
    rw [renderPos, hround]
  have hdigits := natDigits_mem_digits (n / 1000)
  have hdne := natDigits_ne_nil (n / 1000)
  have hnocomma : ∀ c ∈ natDigits (n / 1000), c ≠ ',' :=
    fun c hc => (digit_props c (hdigits c hc)).2.2.2.1
  have hfplt : n % 1000 < 1000 := Nat.mod_lt _ (by norm_num)
  by_cases hfp0 : n % 1000 = 0
  · have hval : ((n : ℚ) / 1000) = ((n / 1000 : ℕ) : ℚ) := by
      have hdm : n = 1000 * (n / 1000) := by omega
      have hnm : (n : ℚ) = 1000 * ((n / 1000 : ℕ) : ℚ) := by exact_mod_cast hdm
      rw [hnm]
      field_simp
    have hclean : cleanStr (String.mk (groupDigits (natDigits (n / 1000)))) =
        String.mk (natDigits (n / 1000)) := by
      rw [cleanStr]
      show String.mk (replFirstComma (cleanChars (groupDigits (natDigits (n / 1000))))) = _
      rw [cleanChars_groupDigits hdigits, replFirstComma_no_comma _ hnocomma]
    have hparse : parseFloatJs (cleanStr (String.mk (groupDigits (natDigits (n / 1000))))) =
        JsNum.num (valNat (natDigits (n / 1000))) := by
      rw [hclean, parseFloatJs]
      show parseFloatList (natDigits (n / 1000)) = _
      exact parseFloatList_digits hdne hdigits
    rw [hdisp, hrender, if_pos hfp0, List.append_nil, parseNum_of_num hparse,
      valNat_natDigits, hval]
  · have hstripd : ∀ c ∈ stripZeros (pad3 (n % 1000)), c ∈ DIGITS :=
      fun c hc => pad3_mem_digits hfplt c (mem_stripZeros hc)
    have hfrac : fracVal (stripZeros (pad3 (n % 1000))) = ((n % 1000 : ℕ) : ℚ) / 1000 := by
      rw [fracVal_stripZeros, fracVal_pad3 hfplt]
    have hval : ((n : ℚ) / 1000) = ((n / 1000 : ℕ) : ℚ) + ((n % 1000 : ℕ) : ℚ) / 1000 := by
      have hdm : n = 1000 * (n / 1000) + n % 1000 := by omega
      have hnm : (n : ℚ) = 1000 * ((n / 1000 : ℕ) : ℚ) + ((n % 1000 : ℕ) : ℚ) := by
        exact_mod_cast hdm
      rw [hnm]
      field_simp
      ring
    have hclean : cleanStr (String.mk (groupDigits (natDigits (n / 1000)) ++
        ',' :: stripZeros (pad3 (n % 1000)))) =
        String.mk (natDigits (n / 1000) ++ '.' :: stripZeros (pad3 (n % 1000))) := by
      rw [cleanStr]
      show String.mk (replFirstComma (cleanChars (groupDigits (natDigits (n / 1000)) ++
        ',' :: stripZeros (pad3 (n % 1000))))) = _
      rw [cleanChars, List.filter_append,
        show List.filter cleanKeep (groupDigits (natDigits (n / 1000))) =
          cleanChars (groupDigits (natDigits (n / 1000))) from rfl,
        cleanChars_groupDigits hdigits,
        show List.filter cleanKeep (',' :: stripZeros (pad3 (n % 1000))) =
          ',' :: List.filter cleanKeep (stripZeros (pad3 (n % 1000))) from by
            rw [List.filter_cons]
            simp [show cleanKeep ',' = true from rfl],
        show List.filter cleanKeep (stripZeros (pad3 (n % 1000))) =
          cleanChars (stripZeros (pad3 (n % 1000))) from rfl,
        cleanChars_of_digits hstripd,
        replFirstComma_append _ _ hnocomma]
    have hparse : parseFloatJs (cleanStr (String.mk (groupDigits (natDigits (n / 1000)) ++
        ',' :: stripZeros (pad3 (n % 1000))))) =
        JsNum.num ((valNat (natDigits (n / 1000)) : ℚ) +
          fracVal (stripZeros (pad3 (n % 1000)))) := by
      rw [hclean, parseFloatJs]
      show parseFloatList (natDigits (n / 1000) ++ '.' :: stripZeros (pad3 (n % 1000))) = _
      exact parseFloatList_digits_frac hdne hdigits hstripd
    rw [hdisp, hrender, if_neg hfp0, parseNum_of_num hparse, valNat_natDigits, hfrac, hval]

/-- C8 (witness): the amended round trip applied at n = 1234500, i.e.
the value 1234,5 — rendered "1.234,5" and normalized back to 1234,5. -/
theorem c8_roundtrip_witness :
    parseNum (toCanonicalDisplay ((1234500 : ℚ) / 1000)) =
      JsNum.num ((1234500 : ℚ) / 1000) := by
  have h := c8_roundtrip 1234500 (by norm_num)
  exact_mod_cast h

end SKG
